import Mathlib

/-!
Shallow embedding of the feature-preparation and evaluation core of the
transaction-fraud-classifier notebook: the `Datasets` train/test splitter,
the `AttributeSelector` and `MyLabelBinarizer` transformers, the two-branch
`data_prep_pipeline`, the rolling-window `prevTxFeatures` computation, and
the confusion-matrix metrics.  Numeric values are modelled as rationals;
categorical values as strings.
-/

namespace FraudClassifier

/-! ### Generic list helpers -/

/-- Concatenation of a list of lists (row-wise block concatenation). -/
def flatCat : List (List α) → List α
  | [] => []
  | a :: r => a ++ flatCat r

theorem flatCat_length (ls : List (List α)) :
    (flatCat ls).length = (ls.map List.length).sum := by
  induction ls with
  | nil => rfl
  | cons a r ih => simp [flatCat, ih]

theorem mem_flatCat {x : α} {ls : List (List α)} :
    x ∈ flatCat ls ↔ ∃ l ∈ ls, x ∈ l := by
  induction ls with
  | nil => simp [flatCat]
  | cons a r ih => simp [flatCat, ih]

theorem getD_map_of_lt (l : List α) (f : α → β) (i : ℕ) (d : α) (d' : β)
    (h : i < l.length) : (l.map f).getD i d' = f (l.getD i d) := by
  induction l generalizing i with
  | nil => simp at h
  | cons a r ih =>
    cases i with
    | zero => rfl
    | succ j => simpa using ih j (by simpa using h)

theorem map_eq_map_range_getD (l : List α) (F : α → β) (d : α) :
    l.map F = (List.range l.length).map (fun i => F (l.getD i d)) := by
  induction l with
  | nil => rfl
  | cons a r ih =>
    simp only [List.length_cons, List.range_succ_eq_map, List.map_cons, List.map_map]
    refine congrArg (F a :: ·) ?_
    rw [ih]
    rfl

theorem getD_mem (l : List α) (i : ℕ) (d : α) (h : i < l.length) :
    l.getD i d ∈ l := by
  induction l generalizing i with
  | nil => simp at h
  | cons a r ih =>
    cases i with
    | zero => simp
    | succ j =>
      simp only [List.getD_cons_succ]
      exact List.mem_cons_of_mem _ (ih j (by simpa using h))

theorem map_range_getD (l : List α) (d : α) :
    (List.range l.length).map (fun i => l.getD i d) = l := by
  conv_rhs => rw [show l = l.map id from (List.map_id l).symm]
  rw [map_eq_map_range_getD l id d]
  rfl

/-! ### CategoricalEncoder: `MyLabelBinarizer`

```python
class MyLabelBinarizer(BaseEstimator, TransformerMixin):
    def fit(self, x, y=None):
        return self
    def transform(self, x, y=None):
        transformations = []
        for col in range(x.shape[1]):
            transformations.append(label_binarize(x[:,col],classes=np.unique(x[:,col])))
        return np.hstack(transformations)
```
-/

/-- Column `j` of a row-major matrix (`x[:,j]`). -/
def column [Inhabited α] (x : List (List α)) (j : ℕ) : List α :=
  x.map (fun row => row.getD j default)

/-- Number of columns of a row-major matrix (`x.shape[1]`). -/
def ncols (x : List (List α)) : ℕ := (x.headD []).length

/-- Sorted list of the distinct values of `l`, as computed by `np.unique`
(sorted by the comparison `le`). -/
def uniqueSorted [DecidableEq α] (le : α → α → Bool) (l : List α) : List α :=
  List.insertionSort (fun a b => le a b = true) l.dedup

/-- Encoding of one value against the class list, following sklearn's
`_label_binarize` with `neg_label=0, pos_label=1`: for at least 3 classes a
full indicator row; for exactly 2 classes the single column marking the
second (larger) class; for at most 1 class a single zero column. -/
def encodeOne [DecidableEq α] [Inhabited α] (classes : List α) (v : α) : List ℚ :=
  if classes.length ≤ 1 then [0]
  else if classes.length = 2 then [if v = classes.getD 1 default then 1 else 0]
  else classes.map (fun c => if v = c then (1 : ℚ) else 0)

/-- sklearn's `label_binarize(y, classes)` (row-wise form). -/
def label_binarize [DecidableEq α] [Inhabited α] (y : List α) (classes : List α) :
    List (List ℚ) :=
  y.map (fun v => encodeOne classes v)

/-- Row `i` of the horizontal concatenation of `blocks`. -/
def rowConcat (blocks : List (List (List ℚ))) (i : ℕ) : List ℚ :=
  match blocks with
  | [] => []
  | b :: rest => b.getD i [] ++ rowConcat rest i

theorem rowConcat_eq_flatCat (blocks : List (List (List ℚ))) (i : ℕ) :
    rowConcat blocks i = flatCat (blocks.map (fun b => b.getD i [])) := by
  induction blocks with
  | nil => rfl
  | cons b rest ih => simp [rowConcat, flatCat, ih]

/-- `np.hstack`: rows are the concatenations of the corresponding block rows
(all blocks share the first block's row count). -/
def hstack (blocks : List (List (List ℚ))) : List (List ℚ) :=
  match blocks with
  | [] => []
  | b :: _ => (List.range b.length).map (fun i => rowConcat blocks i)

namespace MyLabelBinarizer

/-- `MyLabelBinarizer.transform`: binarize every column against the distinct
values found in that same column, and stack the blocks side by side. -/
def transform [DecidableEq α] [Inhabited α] (le : α → α → Bool)
    (x : List (List α)) : List (List ℚ) :=
  hstack ((List.range (ncols x)).map
    (fun j => label_binarize (column x j) (uniqueSorted le (column x j))))

end MyLabelBinarizer

/-- Lexicographic comparison of character lists by code point. -/
def charListLe : List Char → List Char → Bool
  | [], _ => true
  | _ :: _, [] => false
  | a :: as, b :: bs =>
    if a.val.toNat < b.val.toNat then true
    else if b.val.toNat < a.val.toNat then false
    else charListLe as bs

/-- String comparison used for `np.unique` over object columns:
lexicographic by code point. -/
def strLe (a b : String) : Bool := charListLe a.data b.data

/-! ### Data model: pandas data frames -/

/-- A cell value: numeric, categorical string, or missing (`NaN`). -/
inductive Value where
  | num (q : ℚ)
  | str (s : String)
  | missing
deriving DecidableEq, BEq

instance : Inhabited Value := ⟨Value.missing⟩

/-- Comparison on cell values used when `np.unique` is applied to an object
column (within one qualitative column the values have one shape). -/
def Value.le : Value → Value → Bool
  | .num a, .num b => a ≤ b
  | .num _, _ => true
  | .str _, .num _ => false
  | .str a, .str b => strLe a b
  | .str _, .missing => true
  | .missing, .missing => true
  | .missing, _ => false

/-- The numeric content of a cell (numeric columns hold `num` cells). -/
def Value.toQ : Value → ℚ
  | .num q => q
  | _ => 0

/-- A pandas column dtype, as far as `select_dtypes` distinguishes them. -/
inductive Dtype where
  | float64
  | int64
  | object
  | category
deriving DecidableEq, BEq

/-- Is the dtype one of `['object','category']` (a qualitative column)? -/
def isQualDtype : Dtype → Bool
  | .object => true
  | .category => true
  | _ => false

/-- A pandas `DataFrame`: named, dtyped columns over row-major data. -/
structure DataFrame where
  colNames : List String
  dtypes : List Dtype
  rows : List (List Value)
deriving DecidableEq

/-- The cell of `row` under column `name` (`row[name]`). -/
def cellOf (names : List String) (row : List Value) (name : String) : Value :=
  (((names.zip row).find? (fun p => p.1 == name)).map Prod.snd).getD .missing

/-- `df[names].values`: the rows restricted to the listed columns, in the
listed order. -/
def projectCols (df : DataFrame) (names : List String) : List (List Value) :=
  df.rows.map (fun r => names.map (fun n => cellOf df.colNames r n))

/-- `df[name]`: one column of values. -/
def getCol (df : DataFrame) (name : String) : List Value :=
  df.rows.map (fun r => cellOf df.colNames r name)

/-- `df.drop(cols, axis=1)`: a new frame (pandas copies) without the listed
columns. -/
def dropCols (df : DataFrame) (cols : List String) : DataFrame :=
  { colNames := ((df.colNames.zip df.dtypes).filter
      (fun p => !(cols.contains p.1))).map Prod.fst
    dtypes := ((df.colNames.zip df.dtypes).filter
      (fun p => !(cols.contains p.1))).map Prod.snd
    rows := df.rows.map (fun r => ((df.colNames.zip r).filter
      (fun p => !(cols.contains p.1))).map Prod.snd) }

/-- `df.previousTxType.fillna('First', inplace=True)`: the missing cells of
the `previousTxType` column become the sentinel string `"First"`. -/
def fillnaPrevTx (df : DataFrame) : DataFrame :=
  { df with rows := df.rows.map (fun r => (df.colNames.zip r).map
      (fun p => if p.1 == "previousTxType" && p.2 == Value.missing
                then Value.str "First" else p.2)) }

/-! ### `AttributeSelector`

```python
class AttributeSelector(BaseEstimator, TransformerMixin):
    def __init__(self, quantitative = True):
        self.quantitative = quantitative
    def fit(self, X, y=None):
        return self
    def transform(self, X, y=None):
        if self.quantitative:
            self.attribute_names = list(X.select_dtypes(exclude=['object','category']).columns)
        else:
            self.attribute_names = list(X.select_dtypes(include=['object','category']).columns)
        return X[self.attribute_names].values
```
-/

/-- Column names whose dtype is (`includeQual = true`) or is not
(`includeQual = false`) one of `['object','category']`
(`X.select_dtypes(...).columns`). -/
def select_dtypes_cols (df : DataFrame) (includeQual : Bool) : List String :=
  ((df.colNames.zip df.dtypes).filter
    (fun p => isQualDtype p.2 == includeQual)).map Prod.fst

/-- The selector's instance state: the mode flag, and the `attribute_names`
field, which is absent until the first `transform` call assigns it. -/
structure AttributeSelector where
  quantitative : Bool := true
  attribute_names : Option (List String) := none
deriving DecidableEq

/-- `AttributeSelector.fit`: `return self` — no state is recorded. -/
def AttributeSelector.fit (s : AttributeSelector) (_X : DataFrame) :
    AttributeSelector := s

/-- `AttributeSelector.transform`: recomputes the matching column names from
the frame it is given, stores them in `attribute_names`, and returns the
values of those columns. -/
def AttributeSelector.transform (s : AttributeSelector) (X : DataFrame) :
    AttributeSelector × List (List Value) :=
  let names := if s.quantitative then select_dtypes_cols X false
               else select_dtypes_cols X true
  ({ s with attribute_names := some names }, projectCols X names)

/-! ### `StandardScaler` and the two-branch `data_prep_pipeline`

```python
quant_pipeline = Pipeline([('selector',AttributeSelector()),
                           ('std_scaler',StandardScaler())])
qual_pipeline = Pipeline([('selector',AttributeSelector(quantitative=False)),
                          ('label_binarizer',MyLabelBinarizer())])
data_prep_pipeline = FeatureUnion(transformer_list=[('quant_pipeline',quant_pipeline),
                                               ('qual_pipeline',qual_pipeline)])
```
The scaler's square root (`np.sqrt`, applied to the per-column population
variance) is passed as an explicit function parameter `sqrtFn`; none of the
properties proved here depend on its values. -/

/-- Column `j` of a numeric row-major matrix. -/
def columnQ (X : List (List ℚ)) (j : ℕ) : List ℚ :=
  X.map (fun r => r.getD j 0)

/-- Mean of a numeric column (`np.mean`). -/
def colMean (col : List ℚ) : ℚ := col.sum / col.length

/-- Population variance of a numeric column (`np.var`, `ddof=0`). -/
def colVar (col : List ℚ) : ℚ :=
  ((col.map (fun v => (v - colMean col) ^ 2)).sum) / col.length

/-- sklearn's `_handle_zeros_in_scale`: a zero scale is replaced by 1. -/
def handle_zeros_in_scale (s : ℚ) : ℚ := if s = 0 then 1 else s

/-- The fitted state of a `StandardScaler`: per-column `mean_` and `scale_`. -/
structure ScalerState where
  mean : List ℚ
  scale : List ℚ
deriving DecidableEq

namespace StandardScaler

/-- `StandardScaler.fit`: record per-column mean and
`scale_ = _handle_zeros_in_scale(sqrt(var_))`. -/
def fit (sqrtFn : ℚ → ℚ) (X : List (List ℚ)) : ScalerState :=
  { mean := (List.range (ncols X)).map (fun j => colMean (columnQ X j))
    scale := (List.range (ncols X)).map
      (fun j => handle_zeros_in_scale (sqrtFn (colVar (columnQ X j)))) }

/-- `StandardScaler.transform`: subtract `mean_`, divide by `scale_`,
column-wise. -/
def transform (st : ScalerState) (X : List (List ℚ)) : List (List ℚ) :=
  X.map (fun row => (row.zip (st.mean.zip st.scale)).map
    (fun p => (p.1 - p.2.1) / p.2.2))

end StandardScaler

/-- The quantitative branch's input: the values of the non-object,
non-category columns, read as numbers. -/
def quantMatrix (df : DataFrame) : List (List ℚ) :=
  (projectCols df (select_dtypes_cols df false)).map (fun r => r.map Value.toQ)

/-- The qualitative branch's input: the values of the object/category
columns. -/
def qualMatrix (df : DataFrame) : List (List Value) :=
  projectCols df (select_dtypes_cols df true)

/-- The fitted state of `data_prep_pipeline`: only the scaler of the
quantitative branch carries fit-time state (the selectors recompute their
column lists per call and the binarizer recomputes its classes per call). -/
structure PipeState where
  scaler : ScalerState
deriving DecidableEq

/-- `data_prep_pipeline.fit_transform(X)`: each branch runs
`fit_transform`, and the branch outputs are stacked side by side. -/
def data_prep_fit_transform (sqrtFn : ℚ → ℚ) (df : DataFrame) :
    PipeState × List (List ℚ) :=
  let Xq := quantMatrix df
  let st := StandardScaler.fit sqrtFn Xq
  (⟨st⟩, hstack [StandardScaler.transform st Xq,
                 MyLabelBinarizer.transform Value.le (qualMatrix df)])

/-- `data_prep_pipeline.transform(X)` after a fit: the scaler reuses its
fitted state; the selector and the binarizer recompute from `X`. -/
def data_prep_transform (st : PipeState) (df : DataFrame) : List (List ℚ) :=
  hstack [StandardScaler.transform st.scaler (quantMatrix df),
          MyLabelBinarizer.transform Value.le (qualMatrix df)]

/-! ### `Datasets`: the train/test splitter

```python
class Datasets():
    def __init__(self,data,test_size=.25):
        self.original_data = data
        self.data = data.drop(['data_chunk','txOrder','fromId','toId'],axis=1)
        self.data.previousTxType.fillna('First',inplace=True)
        train_set, test_set = train_test_split(self.data,test_size=test_size,random_state=42)
        self.train_set = train_set.copy()
        self.test_set = test_set.copy()
        self.X_Train_DF = self.train_set.drop('fraudulentTx',axis=1)
        self.Y_Train = self.train_set['fraudulentTx'].copy()
        self.X_Test_DF = self.test_set.drop('fraudulentTx',axis=1)
        self.Y_Test = self.test_set['fraudulentTx'].copy()
```
The seeded shuffle of numpy's `RandomState(42).permutation` is modelled by
an executable Fisher–Yates shuffle driven by a linear congruential
generator; the claims proved here depend only on its being a deterministic
permutation. -/

/-- One step of a linear congruential pseudo-random generator. -/
def lcg (s : ℕ) : ℕ := (1664525 * s + 1013904223) % 4294967296

/-- Seeded Fisher–Yates shuffle (models `RandomState(seed).permutation`). -/
def shuffle [DecidableEq α] [Inhabited α] (seed : ℕ) (l : List α) : List α :=
  if h : l = [] then []
  else
    l.getD (seed % l.length) default ::
      shuffle (lcg seed) (l.erase (l.getD (seed % l.length) default))
termination_by l.length
decreasing_by
  have hlen : 0 < l.length := List.length_pos.mpr h
  have hx : l.getD (seed % l.length) default ∈ l :=
    getD_mem l _ default (Nat.mod_lt _ hlen)
  simp only [List.getD] at hx ⊢
  rw [List.length_erase_of_mem hx]
  omega

/-- sklearn's test-set size for a fractional `test_size`:
`ceil(test_size * n)`. -/
def n_test_of (ts : ℚ) (n : ℕ) : ℕ := (⌈ts * n⌉).toNat

/-- The (train, test) index lists of `train_test_split` with seed `seed`:
the shuffled order of `range n`, split after the first `nt` positions
(test indices first, per sklearn's `ShuffleSplit`). -/
def splitIdx (seed n nt : ℕ) : List ℕ × List ℕ :=
  let perm := shuffle seed (List.range n)
  (perm.drop nt, perm.take nt)

/-- `train_test_split(rows, test_size, random_state)`: returns the train
rows and the test rows, indexed by the split index lists. -/
def train_test_split (rows : List (List Value)) (ts : ℚ) (seed : ℕ) :
    List (List Value) × List (List Value) :=
  let (trainI, testI) := splitIdx seed rows.length (n_test_of ts rows.length)
  (trainI.map (fun i => rows.getD i []), testI.map (fun i => rows.getD i []))

/-- The identifier/bookkeeping columns dropped by `Datasets.__init__`. -/
def idCols : List String := ["data_chunk", "txOrder", "fromId", "toId"]

/-- The instance variables of a constructed `Datasets` object. -/
structure Datasets where
  original_data : DataFrame
  data : DataFrame
  train_set : DataFrame
  test_set : DataFrame
  X_Train_DF : DataFrame
  Y_Train : List Value
  X_Test_DF : DataFrame
  Y_Test : List Value
deriving DecidableEq

/-- `Datasets(data, test_size)`.  The first component is the constructed
object; the second is the caller's frame as it stands after construction
(`drop` copies, and the in-place `fillna` targets that copy, so the
caller's frame is returned as passed). -/
def mkDatasets (df : DataFrame) (ts : ℚ) : Datasets × DataFrame :=
  let d := fillnaPrevTx (dropCols df idCols)
  let tt := train_test_split d.rows ts 42
  let train_set : DataFrame := ⟨d.colNames, d.dtypes, tt.1⟩
  let test_set : DataFrame := ⟨d.colNames, d.dtypes, tt.2⟩
  ({ original_data := df
     data := d
     train_set := train_set
     test_set := test_set
     X_Train_DF := dropCols train_set ["fraudulentTx"]
     Y_Train := getCol train_set "fraudulentTx"
     X_Test_DF := dropCols test_set ["fraudulentTx"]
     Y_Test := getCol test_set "fraudulentTx" }, df)

/-! ### Rolling-window features: `prevTxFeatures`

```python
def prevTxFeatures(data,lastK=7):
    for i in range(data.shape[0]):
        last7TxAmount = data.iloc[:i+1,2].tail(lastK)
        data.iloc[i,7] = last7TxAmount.min()
        data.iloc[i,8] = last7TxAmount.mean()
        data.iloc[i,9] = last7TxAmount.max()
    return(data)
```
`data` is one entity's transactions in order; column 2 is the amount and
columns 7–9 receive the three features; only the amount column is read, so
the loop is a map over row indices. -/

/-- `series.tail(k)`: the last `k` elements (all of them when `k ≥ len`). -/
def seriesTail (l : List α) (k : ℕ) : List α := l.drop (l.length - k)

/-- Minimum of a nonempty series (`Series.min`). -/
def listMin : List ℚ → ℚ
  | [] => 0
  | a :: r => r.foldl min a

/-- Maximum of a nonempty series (`Series.max`). -/
def listMax : List ℚ → ℚ
  | [] => 0
  | a :: r => r.foldl max a

/-- Mean of a series (`Series.mean`). -/
def listMean (l : List ℚ) : ℚ := l.sum / l.length

/-- `prevTxFeatures` on one entity's ordered amounts: row `i` receives the
min, mean and max of `amounts[:i+1].tail(lastK)`. -/
def prevTxFeatures (amounts : List ℚ) (lastK : ℕ) : List (ℚ × ℚ × ℚ) :=
  (List.range amounts.length).map (fun i =>
    let last7TxAmount := seriesTail (amounts.take (i + 1)) lastK
    (listMin last7TxAmount, listMean last7TxAmount, listMax last7TxAmount))

/-- Modelled from the spec: "minimum/mean/maximum of the prior 7
transactions for each entity" — the same three statistics, but taken over
the window of the `lastK` transactions strictly before the current one
(`amounts[:i].tail(lastK)`). -/
def priorTxFeaturesSpec (amounts : List ℚ) (lastK : ℕ) : List (ℚ × ℚ × ℚ) :=
  (List.range amounts.length).map (fun i =>
    let w := seriesTail (amounts.take i) lastK
    (listMin w, listMean w, listMax w))

/-! ### Confusion matrix and derived metrics

```python
ml_conf_matrix = confusion_matrix(ml_data.Y_Train,predictions)
performance_measures['precision'] = precision_score(ml_data.Y_Train,predictions)
performance_measures['recall'] = recall_score(ml_data.Y_Train,predictions)
```
-/

/-- How many positions carry true label `t` and predicted label `p`. -/
def countPairs (yTrue yPred : List Bool) (t p : Bool) : ℕ :=
  ((yTrue.zip yPred).filter (fun q => q.1 == t && q.2 == p)).length

/-- `confusion_matrix(y_true, y_pred)`: rows = true negative/positive,
columns = predicted negative/positive, so `[[TN, FP], [FN, TP]]`. -/
def confusion_matrix (yTrue yPred : List Bool) : List (List ℕ) :=
  [[countPairs yTrue yPred false false, countPairs yTrue yPred false true],
   [countPairs yTrue yPred true false, countPairs yTrue yPred true true]]

/-- `precision_score`: `TP / (TP + FP)` (0 when no positive prediction,
matching sklearn's `zero_division` default of 0). -/
def precision_score (yTrue yPred : List Bool) : ℚ :=
  (countPairs yTrue yPred true true : ℚ) /
    ((countPairs yTrue yPred true true : ℚ) + (countPairs yTrue yPred false true : ℚ))

/-- `recall_score`: `TP / (TP + FN)` (0 when no positive label). -/
def recall_score (yTrue yPred : List Bool) : ℚ :=
  (countPairs yTrue yPred true true : ℚ) /
    ((countPairs yTrue yPred true true : ℚ) + (countPairs yTrue yPred true false : ℚ))

/-- Width of the indicator block produced for a class list: a single column
for at most 2 classes, one column per class otherwise. -/
def blockWidth (classes : List α) : ℕ :=
  if classes.length ≤ 2 then 1 else classes.length

/-- Row-wise characterization of the encoder (the amended claim C1):
each row is the concatenation, over source columns `j`, of the encoding of
the row's `j`-th value against the sorted distinct values of column `j`. -/
def MyLabelBinarizer.rowwiseSpec [DecidableEq α] [Inhabited α]
    (le : α → α → Bool) (x : List (List α)) : List (List ℚ) :=
  x.map (fun row => flatCat ((List.range (ncols x)).map
    (fun j => encodeOne (uniqueSorted le (column x j)) (row.getD j default))))

/-! ### Supporting lemmas -/

theorem encodeOne_length [DecidableEq α] [Inhabited α]
    (classes : List α) (v : α) :
    (encodeOne classes v).length = blockWidth classes := by
  unfold encodeOne blockWidth
  by_cases h1 : classes.length ≤ 1
  · rw [if_pos h1, if_pos (show classes.length ≤ 2 by omega)]; rfl
  · by_cases h2 : classes.length = 2
    · rw [if_neg h1, if_pos h2, if_pos (show classes.length ≤ 2 by omega)]; rfl
    · rw [if_neg h1, if_neg h2,
        if_neg (show ¬ classes.length ≤ 2 by omega)]
      simp

theorem mem_encodeOne [DecidableEq α] [Inhabited α] {v : ℚ}
    (classes : List α) (a : α) (h : v ∈ encodeOne classes a) :
    v = 0 ∨ v = 1 := by
  unfold encodeOne at h
  split at h
  · simp at h; exact Or.inl h
  · split at h
    · simp only [List.mem_singleton] at h
      subst h
      split
      · exact Or.inr rfl
      · exact Or.inl rfl
    · obtain ⟨c, _, hc⟩ := List.mem_map.mp h
      by_cases hac : a = c
      · rw [if_pos hac] at hc; exact Or.inr hc.symm
      · rw [if_neg hac] at hc; exact Or.inl hc.symm

theorem mem_hstack {row : List ℚ} {blocks : List (List (List ℚ))}
    (h : row ∈ hstack blocks) : ∃ i, row = rowConcat blocks i := by
  cases blocks with
  | nil => simp [hstack] at h
  | cons b rest =>
    simp only [hstack, List.mem_map, List.mem_range] at h
    obtain ⟨i, _, hi⟩ := h
    exact ⟨i, hi.symm⟩

theorem mem_rowConcat {v : ℚ} {blocks : List (List (List ℚ))} {i : ℕ}
    (h : v ∈ rowConcat blocks i) : ∃ b ∈ blocks, v ∈ b.getD i [] := by
  rw [rowConcat_eq_flatCat] at h
  obtain ⟨l, hl, hv⟩ := mem_flatCat.mp h
  obtain ⟨b, hb, rfl⟩ := List.mem_map.mp hl
  exact ⟨b, hb, hv⟩

theorem hstack_cons_eq (b : List (List ℚ)) (rest : List (List (List ℚ))) :
    hstack (b :: rest) =
      (List.range b.length).map (fun i => rowConcat (b :: rest) i) := rfl

theorem hstack_eq_of_ne_nil (blocks : List (List (List ℚ))) (h : blocks ≠ []) :
    hstack blocks =
      (List.range (blocks.headD []).length).map (fun i => rowConcat blocks i) := by
  cases blocks with
  | nil => simp at h
  | cons b rest => rfl

theorem transform_eq_rowwiseSpec [DecidableEq α] [Inhabited α]
    (le : α → α → Bool) (x : List (List α)) (hm : 0 < ncols x) :
    MyLabelBinarizer.transform le x = MyLabelBinarizer.rowwiseSpec le x := by
  unfold MyLabelBinarizer.transform MyLabelBinarizer.rowwiseSpec
  have hcol : ∀ j, (column x j).length = x.length := by
    intro j; simp [column]
  have hne : (List.range (ncols x)).map
      (fun j => label_binarize (column x j) (uniqueSorted le (column x j))) ≠ [] := by
    simp only [ne_eq, List.map_eq_nil_iff, List.range_eq_nil]
    omega
  rw [hstack_eq_of_ne_nil _ hne]
  have hhead : (((List.range (ncols x)).map
      (fun j => label_binarize (column x j) (uniqueSorted le (column x j)))).headD []).length
      = x.length := by
    obtain ⟨m', hm'⟩ : ∃ m', ncols x = m' + 1 := ⟨ncols x - 1, by omega⟩
    rw [hm', List.range_succ_eq_map, List.map_cons]
    simp [label_binarize, column]
  rw [hhead, map_eq_map_range_getD x _ []]
  apply List.map_congr_left
  intro i hi
  have hix : i < x.length := List.mem_range.mp hi
  rw [rowConcat_eq_flatCat, List.map_map]
  apply congrArg flatCat
  apply List.map_congr_left
  intro j _
  show (label_binarize (column x j) (uniqueSorted le (column x j))).getD i [] =
    encodeOne (uniqueSorted le (column x j)) ((x.getD i []).getD j default)
  unfold label_binarize
  rw [getD_map_of_lt _ _ i default [] (by rw [hcol]; exact hix)]
  unfold column
  rw [getD_map_of_lt _ _ i [] default hix]

theorem shuffle_perm [DecidableEq α] [Inhabited α] (seed : ℕ) (l : List α) :
    (shuffle seed l).Perm l := by
  have H : ∀ (n : ℕ) (seed : ℕ) (l : List α), l.length = n →
      (shuffle seed l).Perm l := by
    intro n
    induction n using Nat.strong_induction_on with
    | _ n ih =>
      intro seed l hn
      rw [shuffle]
      split
      · next h => simp [h]
      · next h =>
        have hlen : 0 < l.length := List.length_pos.mpr h
        have hx : l.getD (seed % l.length) default ∈ l :=
          getD_mem l _ default (Nat.mod_lt _ hlen)
        have hlt : (l.erase (l.getD (seed % l.length) default)).length < n := by
          rw [List.length_erase_of_mem hx]; omega
        have hrec := ih _ hlt (lcg seed)
          (l.erase (l.getD (seed % l.length) default)) rfl
        exact (hrec.cons _).trans (List.perm_cons_erase hx).symm
  exact H l.length seed l rfl

end FraudClassifier

namespace FraudClassifier

/-! ### Claim theorems -/

/-- C7: for every pair of true and predicted binary label vectors, the
metrics satisfy `precision·(TP+FP) = TP` and `recall·(TP+FN) = TP`, with
TP, FP, FN read off the 2×2 confusion matrix whose rows are true
negative/positive and whose columns are predicted negative/positive. -/
theorem C7_confusion_matrix_identities (yTrue yPred : List Bool) :
    precision_score yTrue yPred *
        ((((confusion_matrix yTrue yPred).getD 1 []).getD 1 0 : ℚ) +
          (((confusion_matrix yTrue yPred).getD 0 []).getD 1 0 : ℚ)) =
      (((confusion_matrix yTrue yPred).getD 1 []).getD 1 0 : ℚ) ∧
    recall_score yTrue yPred *
        ((((confusion_matrix yTrue yPred).getD 1 []).getD 1 0 : ℚ) +
          (((confusion_matrix yTrue yPred).getD 1 []).getD 0 0 : ℚ)) =
      (((confusion_matrix yTrue yPred).getD 1 []).getD 1 0 : ℚ) := by
  have key : ∀ a b : ℕ,
      ((a : ℚ) / ((a : ℚ) + (b : ℚ))) * ((a : ℚ) + (b : ℚ)) = (a : ℚ) := by
    intro a b
    by_cases h : ((a : ℚ) + (b : ℚ)) = 0
    · have h2 : ((a + b : ℕ) : ℚ) = 0 := by push_cast; exact h
      have h3 : a + b = 0 := Nat.cast_eq_zero.mp h2
      have ha : a = 0 := by omega
      have hb : b = 0 := by omega
      subst ha; subst hb
      norm_num
    · rw [div_mul_cancel₀ _ h]
  exact ⟨key _ _, key _ _⟩

/-- C3: `data_prep_pipeline.fit_transform(X)` followed by
`data_prep_pipeline.transform(X)` on the same `X` yields the identical
output matrix: the scaler reuses the mean/scale fitted on `X`, and the
selector and binarizer recompute deterministically from `X`. -/
theorem C3_fit_transform_then_transform_idempotent
    (sqrtFn : ℚ → ℚ) (df : DataFrame) :
    data_prep_transform (data_prep_fit_transform sqrtFn df).1 df =
      (data_prep_fit_transform sqrtFn df).2 := rfl

/-- C4: the `Datasets` constructor, whose seed is fixed at 42, is a
deterministic function of its input: two runs on identical inputs produce
identical train/test frames, features and labels. -/
theorem C4_two_run_determinism (df df' : DataFrame) (ts : ℚ) (h : df = df') :
    (mkDatasets df ts).1.train_set = (mkDatasets df' ts).1.train_set ∧
    (mkDatasets df ts).1.test_set = (mkDatasets df' ts).1.test_set ∧
    (mkDatasets df ts).1.X_Train_DF = (mkDatasets df' ts).1.X_Train_DF ∧
    (mkDatasets df ts).1.Y_Train = (mkDatasets df' ts).1.Y_Train ∧
    (mkDatasets df ts).1.X_Test_DF = (mkDatasets df' ts).1.X_Test_DF ∧
    (mkDatasets df ts).1.Y_Test = (mkDatasets df' ts).1.Y_Test := by
  subst h
  exact ⟨rfl, rfl, rfl, rfl, rfl, rfl⟩

/-- C4 witness: the determinism theorem applied to a concrete record set. -/
theorem C4_two_run_determinism_witness :
    (⟨["txAmount", "previousTxType", "fraudulentTx"],
      [Dtype.float64, Dtype.object, Dtype.int64],
      [[Value.num 5, Value.missing, Value.num 0],
       [Value.num 7, Value.str "Payment", Value.num 1]]⟩ : DataFrame) =
      (⟨["txAmount", "previousTxType", "fraudulentTx"],
        [Dtype.float64, Dtype.object, Dtype.int64],
        [[Value.num 5, Value.missing, Value.num 0],
         [Value.num 7, Value.str "Payment", Value.num 1]]⟩ : DataFrame) ∧
    (mkDatasets ⟨["txAmount", "previousTxType", "fraudulentTx"],
      [Dtype.float64, Dtype.object, Dtype.int64],
      [[Value.num 5, Value.missing, Value.num 0],
       [Value.num 7, Value.str "Payment", Value.num 1]]⟩ (1/4)).1.Y_Train =
    (mkDatasets ⟨["txAmount", "previousTxType", "fraudulentTx"],
      [Dtype.float64, Dtype.object, Dtype.int64],
      [[Value.num 5, Value.missing, Value.num 0],
       [Value.num 7, Value.str "Payment", Value.num 1]]⟩ (1/4)).1.Y_Train :=
  ⟨rfl, (C4_two_run_determinism _ _ (1/4) rfl).2.2.2.1⟩

/-- C8: constructing `Datasets(data)` leaves the caller's frame unchanged:
the identifier-column drop produces a copy and the in-place `fillna` is
applied to that copy, so after construction the frame passed in (aliased
as `original_data`) is exactly the original, while the object's `data`
field is the dropped-and-filled copy. -/
theorem C8_constructor_preserves_input (df : DataFrame) (ts : ℚ) :
    (mkDatasets df ts).2 = df ∧
    (mkDatasets df ts).1.original_data = df ∧
    (mkDatasets df ts).1.data = fillnaPrevTx (dropCols df idCols) :=
  ⟨rfl, rfl, rfl⟩

/-- C5: the splitter's two partitions are disjoint and exhaustive: the
train and test row counts add up to the (post-drop) input row count, the
test rows followed by the train rows are a permutation of the post-drop
input rows, and the test and train index lists of the underlying
`train_test_split` are disjoint. -/
theorem C5_partition_disjoint_exhaustive (df : DataFrame) (ts : ℚ) :
    (mkDatasets df ts).1.train_set.rows.length +
        (mkDatasets df ts).1.test_set.rows.length =
      (mkDatasets df ts).1.data.rows.length ∧
    ((mkDatasets df ts).1.test_set.rows ++
        (mkDatasets df ts).1.train_set.rows).Perm
      (mkDatasets df ts).1.data.rows ∧
    ((splitIdx 42 (mkDatasets df ts).1.data.rows.length
        (n_test_of ts (mkDatasets df ts).1.data.rows.length)).2).Disjoint
      ((splitIdx 42 (mkDatasets df ts).1.data.rows.length
        (n_test_of ts (mkDatasets df ts).1.data.rows.length)).1) := by
  have hperm : ∀ n : ℕ, (shuffle 42 (List.range n)).Perm (List.range n) :=
    fun n => shuffle_perm 42 (List.range n)
  refine ⟨?_, ?_, ?_⟩
  · show (((shuffle 42 (List.range (fillnaPrevTx (dropCols df idCols)).rows.length)).drop
        (n_test_of ts (fillnaPrevTx (dropCols df idCols)).rows.length)).map
          (fun i => (fillnaPrevTx (dropCols df idCols)).rows.getD i [])).length +
      (((shuffle 42 (List.range (fillnaPrevTx (dropCols df idCols)).rows.length)).take
        (n_test_of ts (fillnaPrevTx (dropCols df idCols)).rows.length)).map
          (fun i => (fillnaPrevTx (dropCols df idCols)).rows.getD i [])).length =
      (fillnaPrevTx (dropCols df idCols)).rows.length
    rw [List.length_map, List.length_map, List.length_drop, List.length_take,
      (hperm _).length_eq, List.length_range]
    rcases Nat.le_total
        (n_test_of ts (fillnaPrevTx (dropCols df idCols)).rows.length)
        (fillnaPrevTx (dropCols df idCols)).rows.length with h | h
    · rw [min_eq_left h]; omega
    · rw [min_eq_right h]; omega
  · show (((shuffle 42 (List.range (fillnaPrevTx (dropCols df idCols)).rows.length)).take
        (n_test_of ts (fillnaPrevTx (dropCols df idCols)).rows.length)).map
          (fun i => (fillnaPrevTx (dropCols df idCols)).rows.getD i []) ++
      ((shuffle 42 (List.range (fillnaPrevTx (dropCols df idCols)).rows.length)).drop
        (n_test_of ts (fillnaPrevTx (dropCols df idCols)).rows.length)).map
          (fun i => (fillnaPrevTx (dropCols df idCols)).rows.getD i [])).Perm
      (fillnaPrevTx (dropCols df idCols)).rows
    rw [← List.map_append, List.take_append_drop]
    exact ((hperm _).map _).trans
      (by rw [map_range_getD (fillnaPrevTx (dropCols df idCols)).rows []])
  · show (((shuffle 42 (List.range (fillnaPrevTx (dropCols df idCols)).rows.length)).take
        (n_test_of ts (fillnaPrevTx (dropCols df idCols)).rows.length))).Disjoint
      (((shuffle 42 (List.range (fillnaPrevTx (dropCols df idCols)).rows.length)).drop
        (n_test_of ts (fillnaPrevTx (dropCols df idCols)).rows.length)))
    exact List.disjoint_take_drop
      ((hperm _).nodup_iff.mpr (List.nodup_range _)) le_rfl

/-- C9: for any record set whose dtype list matches its column list, the
columns selected by the quantitative mode and those selected by the
qualitative mode partition the columns: concatenated they are a
permutation of the full column list, and when the column names are
distinct the two selections are disjoint. -/
theorem C9_selector_modes_partition_columns (df : DataFrame)
    (h : df.colNames.length = df.dtypes.length) :
    (select_dtypes_cols df false ++ select_dtypes_cols df true).Perm
      df.colNames ∧
    (df.colNames.Nodup →
      (select_dtypes_cols df false).Disjoint (select_dtypes_cols df true)) := by
  have hfst : (df.colNames.zip df.dtypes).map Prod.fst = df.colNames :=
    List.map_fst_zip _ _ (le_of_eq h)
  have hq : ∀ b : Bool, ∀ p : String × Dtype,
      (isQualDtype p.2 == b) = (if b then isQualDtype p.2 else !(isQualDtype p.2)) := by
    intro b p
    cases b <;> cases isQualDtype p.2 <;> rfl
  constructor
  · have hp : ((df.colNames.zip df.dtypes).filter (fun p => isQualDtype p.2) ++
        (df.colNames.zip df.dtypes).filter (fun p => !(isQualDtype p.2))).Perm
        (df.colNames.zip df.dtypes) :=
      List.filter_append_perm _ _
    have : (select_dtypes_cols df false ++ select_dtypes_cols df true).Perm
        (((df.colNames.zip df.dtypes).filter (fun p => !(isQualDtype p.2)) ++
          (df.colNames.zip df.dtypes).filter (fun p => isQualDtype p.2)).map Prod.fst) := by
      unfold select_dtypes_cols
      rw [List.map_append]
      simp only [hq false, hq true]
      simp
    refine this.trans ?_
    have h2 := (List.perm_append_comm.trans hp).map Prod.fst
    rw [hfst] at h2
    exact h2
  · intro hnodup a ha ha'
    unfold select_dtypes_cols at ha ha'
    obtain ⟨p, hp, rfl⟩ := List.mem_map.mp ha
    obtain ⟨p', hp', hpp'⟩ := List.mem_map.mp ha'
    have hpz := (List.mem_filter.mp hp).1
    have hpz' := (List.mem_filter.mp hp').1
    have hcond := (List.mem_filter.mp hp).2
    have hcond' := (List.mem_filter.mp hp').2
    have hmapped : ((df.colNames.zip df.dtypes).map Prod.fst).Nodup := by
      rw [hfst]; exact hnodup
    have : p' = p := List.inj_on_of_nodup_map hmapped hpz' hpz hpp'
    subst this
    simp at hcond hcond'
    rw [hcond'] at hcond
    exact Bool.false_ne_true hcond.symm

/-- C9 witness: the partition theorem applied to a concrete record set
with one quantitative, one qualitative and one label column. -/
theorem C9_selector_modes_partition_columns_witness :
    (["txAmount", "txType", "fraudulentTx"].length =
      [Dtype.float64, Dtype.object, Dtype.int64].length) ∧
    ((select_dtypes_cols
        ⟨["txAmount", "txType", "fraudulentTx"],
         [Dtype.float64, Dtype.object, Dtype.int64], [[]]⟩ false ++
      select_dtypes_cols
        ⟨["txAmount", "txType", "fraudulentTx"],
         [Dtype.float64, Dtype.object, Dtype.int64], [[]]⟩ true).Perm
        ["txAmount", "txType", "fraudulentTx"] ∧
      ((["txAmount", "txType", "fraudulentTx"] : List String).Nodup →
        (select_dtypes_cols
          ⟨["txAmount", "txType", "fraudulentTx"],
           [Dtype.float64, Dtype.object, Dtype.int64], [[]]⟩ false).Disjoint
        (select_dtypes_cols
          ⟨["txAmount", "txType", "fraudulentTx"],
           [Dtype.float64, Dtype.object, Dtype.int64], [[]]⟩ true))) :=
  ⟨rfl, C9_selector_modes_partition_columns
    ⟨["txAmount", "txType", "fraudulentTx"],
     [Dtype.float64, Dtype.object, Dtype.int64], [[]]⟩ rfl⟩

/-- C1 counterexample: a qualitative column with exactly 2 distinct values
`{"A","B"}` is encoded into a single indicator column (sklearn's binary
collapse in `label_binarize`), not one column per distinct value: the
output rows have length 1 while the column has 2 distinct values, so the
total output column count is not the sum of per-column distinct counts. -/
theorem C1_counterexample_two_distinct_values :
    MyLabelBinarizer.transform strLe [["A"], ["B"]] = [[0], [1]] ∧
    (uniqueSorted strLe (column [["A"], ["B"]] 0)).length = 2 ∧
    ((MyLabelBinarizer.transform strLe [["A"], ["B"]]).headD []).length = 1 :=
  ⟨by decide, by decide, by decide⟩

/-- C1 (amended): the encoder processes source columns left to right and,
for each column independently, encodes every row's value against the
sorted distinct values present in that column; a column with at least 3
distinct values contributes one indicator column per distinct value in
sorted order, while a column with 2 (or 1) distinct values contributes a
single column, so every output row's length is the sum over source columns
of `blockWidth` (the distinct count, collapsed to 1 when at most 2). -/
theorem C1_encoder_per_column_blocks [DecidableEq α] [Inhabited α]
    (le : α → α → Bool) (x : List (List α)) (hm : 0 < ncols x) :
    MyLabelBinarizer.transform le x = MyLabelBinarizer.rowwiseSpec le x ∧
    ∀ row ∈ MyLabelBinarizer.transform le x,
      row.length = ((List.range (ncols x)).map
        (fun j => blockWidth (uniqueSorted le (column x j)))).sum := by
  have key := transform_eq_rowwiseSpec le x hm
  refine ⟨key, ?_⟩
  intro row hrow
  rw [key] at hrow
  obtain ⟨r, _, rfl⟩ := List.mem_map.mp hrow
  rw [flatCat_length, List.map_map]
  apply congrArg List.sum
  apply List.map_congr_left
  intro j _
  exact encodeOne_length _ _

/-- C1 witness: a column with the 3 distinct values `{"A","B","C"}` at
encoding time yields 3 indicator columns in sorted order, and the row with
value `"A"` encodes as `[1,0,0]`. -/
theorem C1_encoder_per_column_blocks_witness :
    0 < ncols [["A"], ["B"], ["C"]] ∧
    MyLabelBinarizer.transform strLe [["A"], ["B"], ["C"]] =
      MyLabelBinarizer.rowwiseSpec strLe [["A"], ["B"], ["C"]] ∧
    MyLabelBinarizer.transform strLe [["A"], ["B"], ["C"]] =
      [[1, 0, 0], [0, 1, 0], [0, 0, 1]] :=
  ⟨by decide,
   (C1_encoder_per_column_blocks strLe [["A"], ["B"], ["C"]] (by decide)).1,
   by decide⟩

/-- C2 counterexample: `fit` does not record the matching column names —
it is `return self`, so after `fit` on a frame with a matching quantitative
column the `attribute_names` field is still unset. -/
theorem C2_counterexample_fit_records_nothing :
    ((AttributeSelector.mk true none).fit
        ⟨["txAmount"], [Dtype.float64], [[Value.num 1]]⟩).attribute_names ≠
      some (select_dtypes_cols
        ⟨["txAmount"], [Dtype.float64], [[Value.num 1]]⟩ false) ∧
    select_dtypes_cols
        ⟨["txAmount"], [Dtype.float64], [[Value.num 1]]⟩ false = ["txAmount"] :=
  ⟨by decide, by decide⟩

/-- C2 (amended): `fit` is a no-op; it is `transform` that computes the
matching column list from whatever frame it receives on each call and
returns exactly the values of those columns.  Because the selection
depends only on column names and dtypes, any two frames sharing them (for
instance, train and test features) yield the identical recorded list,
giving structural identity between train and test transforms. -/
theorem C2_selector_recomputes_consistently (s : AttributeSelector)
    (X X' : DataFrame) (hc : X.colNames = X'.colNames)
    (hd : X.dtypes = X'.dtypes) :
    s.fit X = s ∧
    (s.transform X).2 = projectCols X
      (if s.quantitative then select_dtypes_cols X false
       else select_dtypes_cols X true) ∧
    (s.transform X).1.attribute_names = (s.transform X').1.attribute_names := by
  refine ⟨rfl, rfl, ?_⟩
  simp only [AttributeSelector.transform]
  unfold select_dtypes_cols
  rw [hc, hd]

/-- C2 witness: the amended selector semantics applied to two concrete
frames sharing column names and dtypes but holding different rows. -/
theorem C2_selector_recomputes_consistently_witness :
    ((⟨["txAmount", "txType"], [Dtype.float64, Dtype.object],
        [[Value.num 1, Value.str "CashIn"]]⟩ : DataFrame).colNames =
      (⟨["txAmount", "txType"], [Dtype.float64, Dtype.object],
        [[Value.num 2, Value.str "Transfer"]]⟩ : DataFrame).colNames) ∧
    ((⟨["txAmount", "txType"], [Dtype.float64, Dtype.object],
        [[Value.num 1, Value.str "CashIn"]]⟩ : DataFrame).dtypes =
      (⟨["txAmount", "txType"], [Dtype.float64, Dtype.object],
        [[Value.num 2, Value.str "Transfer"]]⟩ : DataFrame).dtypes) ∧
    ((AttributeSelector.mk true none).transform
        ⟨["txAmount", "txType"], [Dtype.float64, Dtype.object],
          [[Value.num 1, Value.str "CashIn"]]⟩).1.attribute_names =
      ((AttributeSelector.mk true none).transform
        ⟨["txAmount", "txType"], [Dtype.float64, Dtype.object],
          [[Value.num 2, Value.str "Transfer"]]⟩).1.attribute_names :=
  ⟨rfl, rfl,
    (C2_selector_recomputes_consistently (AttributeSelector.mk true none)
      ⟨["txAmount", "txType"], [Dtype.float64, Dtype.object],
        [[Value.num 1, Value.str "CashIn"]]⟩
      ⟨["txAmount", "txType"], [Dtype.float64, Dtype.object],
        [[Value.num 2, Value.str "Transfer"]]⟩ rfl rfl).2.2⟩

/-- C6 evidence: `prevTxFeatures` windows over `amounts[:i+1].tail(7)`,
which includes the current transaction, while the claim (and the
notebook's own markdown and the `min7PrevTxAmount`/`mean7PrevTxAmount`/
`max7PrevTxAmount` feature names) describe the prior 7 transactions:
for an entity with amounts `[10, 20]`, at the second transaction the code
produces mean 15 (window `[10, 20]`), whereas the prior-7 window `[10]`
has mean 10. -/
theorem C6_window_includes_current_transaction :
    (prevTxFeatures [10, 20] 7).getD 1 (0, 0, 0) = (10, 15, 20) ∧
    (priorTxFeaturesSpec [10, 20] 7).getD 1 (0, 0, 0) = (10, 10, 10) := by
  constructor <;>
    · show _ = _
      norm_num [prevTxFeatures, priorTxFeaturesSpec, seriesTail, listMin,
        listMax, listMean, List.range_succ]

/-- C10: every entry of the matrix returned by
`MyLabelBinarizer.transform` is 0 or 1. -/
theorem C10_encoder_output_is_binary [DecidableEq α] [Inhabited α]
    (le : α → α → Bool) (x : List (List α)) (row : List ℚ) (v : ℚ)
    (hrow : row ∈ MyLabelBinarizer.transform le x) (hv : v ∈ row) :
    v = 0 ∨ v = 1 := by
  unfold MyLabelBinarizer.transform at hrow
  obtain ⟨i, rfl⟩ := mem_hstack hrow
  obtain ⟨b, hb, hvb⟩ := mem_rowConcat hv
  obtain ⟨j, _, rfl⟩ := List.mem_map.mp hb
  by_cases hi : i < (column x j).length
  · unfold label_binarize at hvb
    rw [getD_map_of_lt _ _ i default [] hi] at hvb
    exact mem_encodeOne _ _ hvb
  · rw [List.getD_eq_default _ _
      (by simpa [label_binarize] using Nat.le_of_not_lt hi)] at hvb
    exact absurd hvb (List.not_mem_nil v)

/-- C10 witness: the binary-output theorem applied to a concrete entry of
a concrete encoded matrix (a single-category column encodes as zeros). -/
theorem C10_encoder_output_is_binary_witness :
    ([0] ∈ MyLabelBinarizer.transform strLe [["P"], ["P"]]) ∧
    ((0 : ℚ) ∈ ([0] : List ℚ)) ∧ ((0 : ℚ) = 0 ∨ (0 : ℚ) = 1) :=
  ⟨by decide, by decide,
    C10_encoder_output_is_binary strLe [["P"], ["P"]] [0] 0
      (by decide) (by decide)⟩

end FraudClassifier
